import Mathlib

/-!
Verification of the SPDZ client aggregation layer
(`src/rest_api/SpdzApiAggregate.js` of `spdz-client-lib`).

The aggregate operations fan one transport call out per configured SPDZ
proxy and join the per-party results.  The transport calls
(`connectProxyToEngine`, `checkEngineConnection`, `disconnectProxyFromEngine`,
`consumeDataFromProxy`, `sendDataToProxy`) and the crypto `decrypt` function
are external collaborators; they are passed in here as oracle functions.
Promise resolution/rejection is modelled with `Except`; `Promise.all` over an
already-computed list of per-party results is `promiseAll` below.  Each
per-party subtask writes the session store only at its own endpoint's key, so
the concurrent completion handlers are modelled by threading the store
through the per-party steps in input order.
-/

namespace SpdzClientLib

/-- Modelled from the spec (StatusModel, §3): closed enumeration used to
classify each party's outcome.  `src/rest_api/ProxyStatusCodes.js` is not
under `src/`. -/
inductive ProxyStatusCodes where
  | Connected
  | Disconnected
  | Failure
deriving DecidableEq

/-- One entry of the aggregated outcome list: `{ id: index, status: ... }`. -/
structure Outcome where
  id : Nat
  status : ProxyStatusCodes
deriving DecidableEq

/-- One entry of `connectToSPDZ`'s outcome list: on success the source also
returns the generated client id (`{ id, status, clientId }`); on failure the
`clientId` field is absent (`none`). -/
structure ConnectOutcome where
  id : Nat
  status : ProxyStatusCodes
  clientId : Option String
deriving DecidableEq

/-- One element of a `spdzProxyList` argument: a JS record which may or may
not carry the `url` and `encryptionKey` fields (absent = `none`). -/
structure Proxy where
  url : Option String
  encryptionKey : Option String
deriving DecidableEq

/-- JS property access `p.url` yields `undefined` when the field is absent;
after validation it is always present.  `getD ""` is only ever reached with
`some`. -/
def Proxy.urlVal (p : Proxy) : String :=
  p.url.getD ""

/-- The rejection reasons produced by the aggregation layer: the synchronous
validation `Error`, the `Not connected to SPDZ for proxy ...` `Error`, the
`NoContentError` raised by `consumeDataFromProxy` on HTTP 204 (the retryable
"no data yet" signal), and transport-level failures. -/
inductive JsError where
  | validation (msg : String)
  | notConnected (url : String)
  | noContent
  | transport (msg : String)
deriving DecidableEq

/-- Result of one `consumeDataFromProxy` transport call: binary payload,
rejection with `NoContentError`, or rejection with any other error. -/
inductive ConsumeResult where
  | payload (bytes : List Nat)
  | noContent
  | transportError (msg : String)
deriving DecidableEq

/-- A `checkEngineConnection` invocation as observed on the wire. -/
structure CheckCall where
  url : String
  clientId : String
deriving DecidableEq

/-- A `disconnectProxyFromEngine` invocation as observed on the wire. -/
structure DisconnectCall where
  url : String
  clientId : String
deriving DecidableEq

/-- A `consumeDataFromProxy` invocation as observed on the wire. -/
structure ConsumeCall where
  url : String
  clientId : String
  waitTimeoutMs : Nat
deriving DecidableEq

/-- A `sendDataToProxy` invocation as observed on the wire. -/
structure SendCall where
  url : String
  clientId : String
  body : String
deriving DecidableEq

/-- Modelled from the spec (SessionStore, §4.1): maps party identity to the
opaque session identifier; `src/rest_api/ClientIds.js` is not under `src/`.
Represented as an association list from proxy url to client id. -/
def SessionStore : Type :=
  List (String × String)

/-- Modelled from the spec (SessionStore, §4.1): raw lookup of the stored
client id for a url, `none` when no mapping exists. -/
def lookupId : SessionStore → String → Option String
  | [], _ => none
  | (k, v) :: rest, url => if k = url then some v else lookupId rest url

/-- Modelled from the spec (SessionStore `exists`, §4.1). -/
def clientIdExists (s : SessionStore) (url : String) : Bool :=
  (lookupId s url).isSome

/-- Modelled from the spec (SessionStore `get`, §4.1): precondition
`exists(endpoint)`; the default is never reached by the aggregation code. -/
def getClientId (s : SessionStore) (url : String) : String :=
  (lookupId s url).getD ""

/-- Modelled from the spec (SessionStore `remove`, §4.1). -/
def removeClientId : SessionStore → String → SessionStore
  | [], _ => []
  | (k, v) :: rest, url =>
      if k = url then removeClientId rest url
      else (k, v) :: removeClientId rest url

/-- Modelled from the spec (SessionStore `store`, §4.1): insert or
overwrite the mapping for one endpoint. -/
def storeClientId (s : SessionStore) (url clientId : String) : SessionStore :=
  (url, clientId) :: removeClientId s url

/-- Modelled from the spec (SessionStore `reset`, §4.1): clears all
mappings. -/
def resetClientIds : SessionStore :=
  []

/-- Modelled from the spec (§6 input validation contract):
`verifyRequiredKeys(spdzProxyList, 'url')` checks that every element of the
list exposes the endpoint-identity field; `src/utility/verifyRequiredKeys.js`
is not under `src/`. -/
def verifyRequiredKeys (proxies : List Proxy) : Bool :=
  proxies.all (fun p => p.url.isSome)

/-- `Promise.all` over a list of already-settled per-party results: resolves
with the list of values when every entry resolved, rejects with (the first,
in list order) per-party rejection otherwise.  Completion timing is not
modelled; no claim depends on which of several rejections is surfaced. -/
def promiseAll {E A : Type} : List (Except E A) → Except E (List A)
  | [] => .ok []
  | .error e :: _ => .error e
  | .ok a :: rest => (promiseAll rest).map (fun as => a :: as)

/-- JS property access `.size` on a plain `Array` yields `undefined`
(modelled as `none`): `Array`s expose `.length`, not `.size`.  The source's
guard `spdzConnectionStatusList.size === 0` therefore never fires for the
documented `Object[]` argument. -/
def jsArraySize {A : Type} (_l : List A) : Option Nat :=
  none

/-- `allProxiesConnected` from the source: a dead `.size === 0` guard, then
`filter(status === Connected).length === list.length`. -/
def allProxiesConnected (spdzConnectionStatusList : List Outcome) : Bool :=
  if jsArraySize spdzConnectionStatusList = some 0 then false
  else
    (spdzConnectionStatusList.filter
        (fun c => c.status = ProxyStatusCodes.Connected)).length
      = spdzConnectionStatusList.length

/-- Per-party steps of `connectToSPDZ`, in input order.  `connect` abstracts
`connectProxyToEngine` with the call's fixed `spdzApiRoot`, optional
`clientId` and optional `clientPublicKey` already applied: it resolves with
the generated client id or rejects.  The `then`-handler stores the client id
under the party's own url and yields `{ id, Connected, clientId }`; the
`catch`-handler logs and yields `{ id, Failure }`.  Handlers write the store
only at their own url, so threading them in input order is faithful. -/
def connectLoop (connect : String → Except String String) :
    SessionStore → List String → Nat → SessionStore × List ConnectOutcome
  | s, [], _ => (s, [])
  | s, url :: rest, index =>
      match connect url with
      | .ok generatedClientId =>
          let r := connectLoop connect (storeClientId s url generatedClientId)
            rest (index + 1)
          (r.1, ⟨index, .Connected, some generatedClientId⟩ :: r.2)
      | .error _ =>
          let r := connectLoop connect s rest (index + 1)
          (r.1, ⟨index, .Failure, none⟩ :: r.2)

/-- `connectToSPDZ` from the source: `resetClientIds()` first, then one
connect attempt per url; every attempt's rejection is caught, so the
aggregate always resolves with one outcome per url. -/
def connectToSPDZ (connect : String → Except String String)
    (spdzProxyUrlList : List String) : SessionStore × List ConnectOutcome :=
  connectLoop connect resetClientIds spdzProxyUrlList 0

/-- Per-party steps of `checkProxies`, in input order.  `check` abstracts
`checkEngineConnection` with the fixed `spdzApiRoot` applied: `true` is a
resolved check, `false` a rejected one.  No branch touches the store; it is
threaded to record that fact.  Also returns the trace of transport calls. -/
def checkLoop (check : String → String → Bool) :
    SessionStore → List String → Nat →
      SessionStore × List CheckCall × List Outcome
  | s, [], _ => (s, [], [])
  | s, url :: rest, index =>
      if clientIdExists s url = false then
        let r := checkLoop check s rest (index + 1)
        (r.1, r.2.1, ⟨index, .Failure⟩ :: r.2.2)
      else
        let cid := getClientId s url
        let out : Outcome :=
          if check url cid then ⟨index, .Connected⟩ else ⟨index, .Disconnected⟩
        let r := checkLoop check s rest (index + 1)
        (r.1, ⟨url, cid⟩ :: r.2.1, out :: r.2.2)

/-- `checkProxies` from the source: per url, no stored client id means
`{ id, Failure }` with no network call; otherwise `checkEngineConnection` is
invoked and resolution maps to `Connected`, rejection to `Disconnected`. -/
def checkProxies (check : String → String → Bool) (s : SessionStore)
    (spdzProxyUrlList : List String) :
    SessionStore × List CheckCall × List Outcome :=
  checkLoop check s spdzProxyUrlList 0

/-- Per-party steps of `disconnectFromSPDZ`, in input order.  `disconnect`
abstracts `disconnectProxyFromEngine` with the fixed `spdzApiRoot` applied.
Both the `then`- and the `catch`-handler remove the client id and yield
`{ id, Disconnected }`. -/
def disconnectLoop (disconnect : String → String → Bool) :
    SessionStore → List Proxy → Nat →
      SessionStore × List DisconnectCall × List Outcome
  | s, [], _ => (s, [], [])
  | s, proxy :: rest, index =>
      if clientIdExists s proxy.urlVal = false then
        let r := disconnectLoop disconnect s rest (index + 1)
        (r.1, r.2.1, ⟨index, .Disconnected⟩ :: r.2.2)
      else
        let cid := getClientId s proxy.urlVal
        let step :=
          if disconnect proxy.urlVal cid then
            (removeClientId s proxy.urlVal,
             (⟨index, .Disconnected⟩ : Outcome))
          else
            (removeClientId s proxy.urlVal,
             (⟨index, .Disconnected⟩ : Outcome))
        let r := disconnectLoop disconnect step.1 rest (index + 1)
        (r.1, ⟨proxy.urlVal, cid⟩ :: r.2.1, step.2 :: r.2.2)

/-- `disconnectFromSPDZ` from the source: `verifyRequiredKeys` rejects the
whole call before any network activity; otherwise each entry with a stored
client id triggers `disconnectProxyFromEngine` and the id is removed whether
the remote call resolved or rejected; entries without a session resolve
`Disconnected` trivially. -/
def disconnectFromSPDZ (disconnect : String → String → Bool)
    (s : SessionStore) (spdzProxyList : List Proxy) :
    List DisconnectCall × Except JsError (SessionStore × List Outcome) :=
  if verifyRequiredKeys spdzProxyList = false then
    ([], .error (.validation "Each spdzProxyList entry must contain keys: url."))
  else
    let r := disconnectLoop disconnect s spdzProxyList 0
    (r.2.1, .ok (r.1, r.2.2))

/-- Per-party step of `consumeDataFromProxies`.  `consume` abstracts
`consumeDataFromProxy` with the fixed `spdzApiRoot` applied; `decrypt`
abstracts the crypto collaborator.  A missing session yields the
`Not connected` rejection without a network call; otherwise the transport
result is mapped: a payload is decrypted with the party's own
`encryptionKey` when the call-level `encrypted` flag is set, and rejections
(`NoContentError` or transport) pass through unchanged. -/
def consumeOne (consume : String → String → Nat → ConsumeResult)
    (decrypt : Option String → List Nat → List Nat) (s : SessionStore)
    (encrypted : Bool) (waitTimeoutMs : Nat) (proxy : Proxy) :
    List ConsumeCall × Except JsError (List Nat) :=
  if clientIdExists s proxy.urlVal = false then
    ([], .error (.notConnected proxy.urlVal))
  else
    let cid := getClientId s proxy.urlVal
    match consume proxy.urlVal cid waitTimeoutMs with
    | .payload binaryPayload =>
        ([⟨proxy.urlVal, cid, waitTimeoutMs⟩],
         .ok (if encrypted then decrypt proxy.encryptionKey binaryPayload
              else binaryPayload))
    | .noContent => ([⟨proxy.urlVal, cid, waitTimeoutMs⟩], .error .noContent)
    | .transportError m =>
        ([⟨proxy.urlVal, cid, waitTimeoutMs⟩], .error (.transport m))

/-- `consumeDataFromProxies` from the source: validation first, then the map
builds every per-party subtask (so every party with a session is contacted
even when another party's subtask rejects) and `Promise.all` joins them —
any per-party rejection rejects the whole call. -/
def consumeDataFromProxies (consume : String → String → Nat → ConsumeResult)
    (decrypt : Option String → List Nat → List Nat) (s : SessionStore)
    (spdzProxyList : List Proxy) (encrypted : Bool) (waitTimeoutMs : Nat) :
    List ConsumeCall × Except JsError (List (List Nat)) :=
  if verifyRequiredKeys spdzProxyList = false then
    ([], .error (.validation "Each spdzProxyList entry must contain keys: url."))
  else
    let perParty :=
      spdzProxyList.map (consumeOne consume decrypt s encrypted waitTimeoutMs)
    ((perParty.map Prod.fst).flatten, promiseAll (perParty.map Prod.snd))

/-- Per-party step of `sendInputsToProxies`.  `send` abstracts
`sendDataToProxy` with the fixed `spdzApiRoot` applied; the same `payload`
string is handed to every party.  A missing session yields the
`Not connected` rejection without a network call. -/
def sendOne (send : String → String → String → Except String Unit)
    (s : SessionStore) (payload : String) (proxy : Proxy) :
    List SendCall × Except JsError Unit :=
  if clientIdExists s proxy.urlVal = false then
    ([], .error (.notConnected proxy.urlVal))
  else
    let cid := getClientId s proxy.urlVal
    match send proxy.urlVal cid payload with
    | .ok _ => ([⟨proxy.urlVal, cid, payload⟩], .ok ())
    | .error m => ([⟨proxy.urlVal, cid, payload⟩], .error (.transport m))

/-- `sendInputsToProxies` from the source: validation first, then the JSON
body is computed once — `JSON.stringify(inputList.map(g =>
base64Encode(g.toNativeHexString())))` — and the same body is sent to every
party with a session; `Promise.all` joins, so any per-party rejection
rejects the whole call.  `base64Encode`, `JSON.stringify` and the Gfp hex
encoding are abstracted as function parameters over an arbitrary input
element type `A`. -/
def sendInputsToProxies {A : Type}
    (base64Encode : String → String) (jsonStringify : List String → String)
    (toNativeHexString : A → String)
    (send : String → String → String → Except String Unit)
    (s : SessionStore) (spdzProxyList : List Proxy) (inputList : List A) :
    List SendCall × Except JsError (List Unit) :=
  if verifyRequiredKeys spdzProxyList = false then
    ([], .error (.validation "Each spdzProxyList entry must contain keys: url."))
  else
    let payload :=
      jsonStringify
        (inputList.map (fun gfpInput => base64Encode (toNativeHexString gfpInput)))
    let perParty := spdzProxyList.map (sendOne send s payload)
    ((perParty.map Prod.fst).flatten, promiseAll (perParty.map Prod.snd))

/-- Expected outcome of `connectToSPDZ` at one indexed url, used to state the
positional characterisation of the outcome list. -/
def connectOutcomeOf (connect : String → Except String String)
    (e : Nat × String) : ConnectOutcome :=
  match connect e.2 with
  | .ok cid => ⟨e.1, .Connected, some cid⟩
  | .error _ => ⟨e.1, .Failure, none⟩

/-- Expected outcome of `checkProxies` at one indexed url, used to state the
positional characterisation of the outcome list. -/
def checkOutcomeOf (check : String → String → Bool) (s : SessionStore)
    (e : Nat × String) : Outcome :=
  if clientIdExists s e.2 = false then ⟨e.1, .Failure⟩
  else if check e.2 (getClientId s e.2) then ⟨e.1, .Connected⟩
  else ⟨e.1, .Disconnected⟩

section Fixtures

/-- Concrete session store for witnesses: one session, url `u`, id `c`. -/
def cStore : SessionStore :=
  [("u", "c")]

/-- Concrete proxy record with url `u` and encryption key `k`. -/
def cProxy : Proxy :=
  ⟨some "u", some "k"⟩

/-- Concrete proxy record missing the `url` field. -/
def cBadProxy : Proxy :=
  ⟨none, some "k"⟩

/-- Concrete proxy record whose url `x` has no stored session in `cStore`. -/
def cProxyX : Proxy :=
  ⟨some "x", none⟩

/-- Concrete connect oracle: fails for url `B`, succeeds elsewhere. -/
def cConnect (url : String) : Except String String :=
  if url = "B" then .error "down" else .ok ("id-" ++ url)

/-- Concrete check oracle that always resolves. -/
def cCheck (_url _cid : String) : Bool :=
  true

/-- Concrete disconnect oracle that always rejects. -/
def cDisc (_url _cid : String) : Bool :=
  false

/-- Concrete consume oracle that always yields the payload `[7]`. -/
def cConsume (_url _cid : String) (_wait : Nat) : ConsumeResult :=
  .payload [7]

/-- Concrete consume oracle that always reports no content yet. -/
def cConsumeNC (_url _cid : String) (_wait : Nat) : ConsumeResult :=
  .noContent

/-- Concrete decrypt oracle: prepends the key length, so its output differs
observably from its input. -/
def cDecrypt (key : Option String) (bytes : List Nat) : List Nat :=
  (key.getD "").length :: bytes

/-- Concrete send oracle that always acknowledges. -/
def cSend (_url _cid _body : String) : Except String Unit :=
  .ok ()

/-- Concrete base64 stand-in for witnesses. -/
def cB64 (s : String) : String :=
  "b64(" ++ s ++ ")"

/-- Concrete JSON stringifier stand-in for witnesses. -/
def cJson (l : List String) : String :=
  String.join l

/-- Concrete Gfp hex encoding stand-in for witnesses. -/
def cHex (n : Nat) : String :=
  toString n

end Fixtures

/-! ## Session store lemmas -/

theorem lookupId_removeClientId (s : SessionStore) (v u : String) :
    lookupId (removeClientId s v) u = if u = v then none else lookupId s u := by
  induction s with
  | nil => simp [removeClientId, lookupId]
  | cons kv rest ih =>
      obtain ⟨k, c⟩ := kv
      simp only [removeClientId]
      by_cases hkv : k = v
      · rw [if_pos hkv, ih]
        by_cases huv : u = v
        · simp [huv]
        · have hku : ¬k = u := fun h => huv (h.symm.trans hkv)
          simp [huv, lookupId, hku]
      · rw [if_neg hkv]
        by_cases hku : k = u
        · have huv : ¬u = v := fun h => hkv (hku.trans h)
          simp [lookupId, hku, huv]
        · simp [lookupId, hku, ih]

theorem lookupId_storeClientId (s : SessionStore) (v c u : String) :
    lookupId (storeClientId s v c) u =
      if u = v then some c else lookupId s u := by
  simp only [storeClientId, lookupId]
  by_cases huv : u = v
  · simp [huv]
  · rw [if_neg (fun h : v = u => huv h.symm), lookupId_removeClientId,
      if_neg huv, if_neg huv]

theorem clientIdExists_eq_false_iff (s : SessionStore) (u : String) :
    clientIdExists s u = false ↔ lookupId s u = none := by
  unfold clientIdExists
  cases lookupId s u <;> simp

/-! ## promiseAll lemmas -/

theorem promiseAll_map_ok {A B E : Type} (l : List A) (f : A → Except E B)
    (g : A → B) (h : ∀ x ∈ l, f x = .ok (g x)) :
    promiseAll (l.map f) = .ok (l.map g) := by
  induction l with
  | nil => rfl
  | cons x rest ih =>
      have hx := h x (by simp)
      simp only [List.map_cons, promiseAll, hx,
        ih (fun y hy => h y (by simp [hy]))]
      rfl

theorem promiseAll_isOk_of_ok {E A : Type} (l : List (Except E A)) (as : List A)
    (h : promiseAll l = .ok as) : ∀ r ∈ l, ∃ a, r = .ok a := by
  induction l generalizing as with
  | nil => simp
  | cons r rest ih =>
      cases r with
      | error e => simp [promiseAll] at h
      | ok a =>
          simp only [promiseAll] at h
          cases hrest : promiseAll rest with
          | error e => rw [hrest] at h; simp [Except.map] at h
          | ok bs =>
              intro r hr
              rcases List.mem_cons.mp hr with h1 | h2
              · exact ⟨a, by simp [h1]⟩
              · exact ih bs hrest r h2

theorem promiseAll_error_of_mem {E A : Type} (l : List (Except E A)) (e : E)
    (h : Except.error e ∈ l) : ∃ e', promiseAll l = .error e' := by
  cases hall : promiseAll l with
  | error e' => exact ⟨e', rfl⟩
  | ok as =>
      rcases promiseAll_isOk_of_ok l as hall (Except.error e) h with ⟨a, ha⟩
      cases ha

theorem promiseAll_error_eq {E A : Type} (l : List (Except E A)) (e0 : E)
    (hall : ∀ r ∈ l, (∃ a, r = .ok a) ∨ r = .error e0)
    (hex : Except.error e0 ∈ l) : promiseAll l = .error e0 := by
  induction l with
  | nil => simp at hex
  | cons r rest ih =>
      rcases hall r (by simp) with ⟨a, ha⟩ | ha
      · subst ha
        have hex' : Except.error e0 ∈ rest := by
          rcases List.mem_cons.mp hex with h1 | h2
          · cases h1
          · exact h2
        simp only [promiseAll, ih (fun x hx => hall x (by simp [hx])) hex']
        rfl
      · subst ha
        rfl

/-! ## Validation lemma -/

theorem verifyRequiredKeys_eq_false (proxies : List Proxy)
    (h : ∃ p ∈ proxies, p.url = none) : verifyRequiredKeys proxies = false := by
  rcases h with ⟨p, hp, hurl⟩
  by_contra hv
  have hv' : verifyRequiredKeys proxies = true := by
    cases h : verifyRequiredKeys proxies
    · exact absurd h hv
    · rfl
  have := (List.all_eq_true.mp hv') p hp
  rw [hurl] at this
  cases this

/-! ## C1: allProxiesConnected -/

/-- C1 (code bug evaluated at the failing input): the claim says
`allProxiesConnected` applied to the empty list returns `false`, and the
source's own guard (`if (spdzConnectionStatusList.size === 0) return false`)
shows that intent; but `.size` on the documented `Array` input is
`undefined`, the guard never fires, and the `filter`-length comparison
`0 === 0` makes the empty list evaluate to `true`.  The two further
evaluations show the non-empty behaviour agrees with the claim. -/
theorem allProxiesConnected_empty_true :
    allProxiesConnected [] = true ∧
    allProxiesConnected [⟨0, .Connected⟩, ⟨1, .Connected⟩] = true ∧
    allProxiesConnected [⟨0, .Connected⟩, ⟨1, .Failure⟩] = false :=
  ⟨rfl, by decide, by decide⟩

/-- `allProxiesConnected` is all-membership filtering: it returns `true`
exactly when every member's status is `Connected`.  On non-empty lists this
agrees with the spec; on the empty list it makes `allProxiesConnected`
vacuously `true`, which is where the code diverges from the spec. -/
theorem allProxiesConnected_iff_forall (l : List Outcome) :
    allProxiesConnected l = true ↔
      ∀ o ∈ l, o.status = ProxyStatusCodes.Connected := by
  constructor
  · intro h o ho
    simp only [allProxiesConnected, jsArraySize] at h
    have hlen : (l.filter
        (fun c => c.status = ProxyStatusCodes.Connected)).length
        = l.length := by
      simpa using h
    have hall := (List.filter_length_eq_length).mp hlen
    simpa using hall o ho
  · intro h
    simp only [allProxiesConnected, jsArraySize]
    have : l.filter (fun c => c.status = ProxyStatusCodes.Connected) = l := by
      apply List.filter_eq_self.mpr
      intro o ho
      simpa using h o ho
    simp [this]

/-! ## C3: connectToSPDZ -/

theorem connectLoop_snd (connect : String → Except String String)
    (s : SessionStore) (urls : List String) (i : Nat) :
    (connectLoop connect s urls i).2 =
      (List.enumFrom i urls).map (connectOutcomeOf connect) := by
  induction urls generalizing s i with
  | nil => rfl
  | cons u rest ih =>
      cases h : connect u with
      | ok cid =>
          simp [connectLoop, h, ih, List.enumFrom_cons, connectOutcomeOf]
      | error e =>
          simp [connectLoop, h, ih, List.enumFrom_cons, connectOutcomeOf]

theorem connectLoop_lookup_preserve (connect : String → Except String String)
    (s : SessionStore) (urls : List String) (i : Nat) (u cid : String)
    (hs : lookupId s u = some cid) (hc : connect u = .ok cid) :
    lookupId (connectLoop connect s urls i).1 u = some cid := by
  induction urls generalizing s i with
  | nil => simpa [connectLoop] using hs
  | cons v rest ih =>
      cases h : connect v with
      | ok c2 =>
          simp only [connectLoop, h]
          apply ih
          rw [lookupId_storeClientId]
          by_cases huv : u = v
          · subst huv
            rw [hc] at h
            injection h with h2
            subst h2
            simp
          · rw [if_neg huv]
            exact hs
      | error e =>
          simp only [connectLoop, h]
          exact ih _ _ hs

theorem connectLoop_lookup_mem (connect : String → Except String String)
    (s : SessionStore) (urls : List String) (i : Nat) (u cid : String)
    (hu : u ∈ urls) (hc : connect u = .ok cid) :
    lookupId (connectLoop connect s urls i).1 u = some cid := by
  induction urls generalizing s i with
  | nil => cases hu
  | cons v rest ih =>
      rcases List.mem_cons.mp hu with h1 | h2
      · subst h1
        simp only [connectLoop, hc]
        apply connectLoop_lookup_preserve connect _ rest (i + 1) u cid _ hc
        rw [lookupId_storeClientId]
        simp
      · cases h : connect v with
        | ok c2 =>
            simp only [connectLoop, h]
            exact ih _ _ h2
        | error e =>
            simp only [connectLoop, h]
            exact ih _ _ h2

/-- C3: for every endpoint list, `connectToSPDZ` resolves (it never rejects:
every per-party rejection is caught) with exactly one outcome per url, the
outcome at position `i` carrying `id = i` and, when the connect oracle
succeeded with client id `cid`, status `Connected` with `cid` both returned
and stored in the session store; when it failed, status `Failure`. -/
theorem connectToSPDZ_outcomes_and_sessions
    (connect : String → Except String String) (urls : List String) :
    (connectToSPDZ connect urls).2.length = urls.length ∧
    (connectToSPDZ connect urls).2 =
      (List.enumFrom 0 urls).map (connectOutcomeOf connect) ∧
    ∀ url ∈ urls, ∀ cid, connect url = .ok cid →
      clientIdExists (connectToSPDZ connect urls).1 url = true ∧
      getClientId (connectToSPDZ connect urls).1 url = cid := by
  refine ⟨?_, connectLoop_snd connect resetClientIds urls 0, ?_⟩
  · rw [connectToSPDZ, connectLoop_snd]
    simp
  · intro url hu cid hc
    have h := connectLoop_lookup_mem connect resetClientIds urls 0 url cid hu hc
    rw [connectToSPDZ]
    constructor
    · simp [clientIdExists, h]
    · simp [getClientId, h]

/-- C3 witness: scenario from the spec — endpoints `A, B, C`, connect fails
for `B`: three outcomes `[{0, Connected}, {1, Failure}, {2, Connected}]`,
with `C`'s generated client id stored. -/
theorem connectToSPDZ_outcomes_and_sessions_witness :
    (connectToSPDZ cConnect ["A", "B", "C"]).2 =
      [⟨0, .Connected, some "id-A"⟩, ⟨1, .Failure, none⟩,
       ⟨2, .Connected, some "id-C"⟩] ∧
    clientIdExists (connectToSPDZ cConnect ["A", "B", "C"]).1 "C" = true ∧
    getClientId (connectToSPDZ cConnect ["A", "B", "C"]).1 "C" = "id-C" := by
  have h := connectToSPDZ_outcomes_and_sessions cConnect ["A", "B", "C"]
  have h2 := h.2.2 "C" (by simp) "id-C" (by rfl)
  refine ⟨?_, h2.1, h2.2⟩
  rw [h.2.1]
  rfl

/-! ## C6 and C10: checkProxies -/

theorem checkLoop_fst (check : String → String → Bool) (s : SessionStore)
    (urls : List String) (i : Nat) : (checkLoop check s urls i).1 = s := by
  induction urls generalizing i with
  | nil => rfl
  | cons u rest ih =>
      by_cases h : clientIdExists s u = false
      · simp [checkLoop, h, ih]
      · simp [checkLoop, h, ih]

theorem checkLoop_outs (check : String → String → Bool) (s : SessionStore)
    (urls : List String) (i : Nat) :
    (checkLoop check s urls i).2.2 =
      (List.enumFrom i urls).map (checkOutcomeOf check s) := by
  induction urls generalizing i with
  | nil => rfl
  | cons u rest ih =>
      by_cases h : clientIdExists s u = false
      · simp [checkLoop, h, ih, List.enumFrom_cons, checkOutcomeOf]
      · by_cases h2 : check u (getClientId s u) <;>
          simp [checkLoop, h, h2, ih, List.enumFrom_cons, checkOutcomeOf]

theorem checkLoop_calls (check : String → String → Bool) (s : SessionStore)
    (urls : List String) (i : Nat) :
    ∀ c ∈ (checkLoop check s urls i).2.1, clientIdExists s c.url = true := by
  induction urls generalizing i with
  | nil => simp [checkLoop]
  | cons u rest ih =>
      by_cases h : clientIdExists s u = false
      · simp only [checkLoop, if_pos h]
        exact ih _
      · intro c hc
        simp only [checkLoop, if_neg h] at hc
        rcases List.mem_cons.mp hc with h1 | h2
        · subst h1
          simpa using h
        · exact ih _ c h2

/-- C6: `checkProxies` resolves with one outcome per url in input order —
no stored session means `{ id, Failure }` with no network call for that url,
a session whose check resolves means `{ id, Connected }`, and a session
whose check rejects means `{ id, Disconnected }`. -/
theorem checkProxies_outcomes_and_calls (check : String → String → Bool)
    (s : SessionStore) (urls : List String) :
    (checkProxies check s urls).2.2 =
      (List.enumFrom 0 urls).map (checkOutcomeOf check s) ∧
    (checkProxies check s urls).2.2.length = urls.length ∧
    ∀ url, clientIdExists s url = false →
      ∀ c ∈ (checkProxies check s urls).2.1, c.url ≠ url := by
  refine ⟨checkLoop_outs check s urls 0, ?_, ?_⟩
  · rw [checkProxies, checkLoop_outs]
    simp
  · intro url hu c hc hcu
    have := checkLoop_calls check s urls 0 c hc
    rw [hcu, hu] at this
    cases this

/-- C6 witness: with only `u` holding a session, `checkProxies` on
`[u, x]` yields `[{0, Connected}, {1, Failure}]` and makes no network call
for `x`. -/
theorem checkProxies_outcomes_and_calls_witness :
    (checkProxies cCheck cStore ["u", "x"]).2.2 =
      [⟨0, .Connected⟩, ⟨1, .Failure⟩] ∧
    ∀ c ∈ (checkProxies cCheck cStore ["u", "x"]).2.1, c.url ≠ "x" := by
  have h := checkProxies_outcomes_and_calls cCheck cStore ["u", "x"]
  exact ⟨by rw [h.1]; rfl, h.2.2 "x" (by rfl)⟩

/-- C10: `checkProxies` never modifies the session store — the mapping from
endpoint to stored client id after the call is the one before it, for every
url list, prior store state and check oracle. -/
theorem checkProxies_preserves_sessions (check : String → String → Bool)
    (s : SessionStore) (urls : List String) :
    (checkProxies check s urls).1 = s :=
  checkLoop_fst check s urls 0

/-! ## C5: disconnectFromSPDZ -/

theorem disconnectLoop_none_preserve (d : String → String → Bool)
    (s : SessionStore) (ps : List Proxy) (i : Nat) (u : String)
    (hs : lookupId s u = none) :
    lookupId (disconnectLoop d s ps i).1 u = none := by
  induction ps generalizing s i with
  | nil => simpa [disconnectLoop] using hs
  | cons p rest ih =>
      by_cases h : clientIdExists s p.urlVal = false
      · simp only [disconnectLoop, if_pos h]
        exact ih _ _ hs
      · have hrem : lookupId (removeClientId s p.urlVal) u = none := by
          rw [lookupId_removeClientId]
          by_cases huv : u = p.urlVal <;> simp [huv, hs]
        by_cases hd : d p.urlVal (getClientId s p.urlVal) <;>
          · simp only [disconnectLoop, if_neg h, hd]
            exact ih _ _ hrem

theorem disconnectLoop_mem (d : String → String → Bool) (s : SessionStore)
    (ps : List Proxy) (i : Nat) :
    ∀ p ∈ ps, lookupId (disconnectLoop d s ps i).1 p.urlVal = none := by
  induction ps generalizing s i with
  | nil => simp
  | cons q rest ih =>
      intro p hp
      rcases List.mem_cons.mp hp with h1 | h2
      · subst h1
        by_cases h : clientIdExists s p.urlVal = false
        · simp only [disconnectLoop, if_pos h]
          exact disconnectLoop_none_preserve d s rest (i + 1) p.urlVal
            ((clientIdExists_eq_false_iff s p.urlVal).mp h)
        · have hrem : lookupId (removeClientId s p.urlVal) p.urlVal = none := by
            rw [lookupId_removeClientId, if_pos rfl]
          by_cases hd : d p.urlVal (getClientId s p.urlVal) <;>
            · simp only [disconnectLoop, if_neg h, hd]
              exact disconnectLoop_none_preserve d _ rest (i + 1) p.urlVal hrem
      · by_cases h : clientIdExists s q.urlVal = false
        · simp only [disconnectLoop, if_pos h]
          exact ih _ _ p h2
        · by_cases hd : d q.urlVal (getClientId s q.urlVal) <;>
            · simp only [disconnectLoop, if_neg h, hd]
              exact ih _ _ p h2

theorem disconnectLoop_outs (d : String → String → Bool) (s : SessionStore)
    (ps : List Proxy) (i : Nat) :
    (disconnectLoop d s ps i).2.2 =
      (List.enumFrom i ps).map
        (fun e => (⟨e.1, .Disconnected⟩ : Outcome)) := by
  induction ps generalizing s i with
  | nil => rfl
  | cons p rest ih =>
      by_cases h : clientIdExists s p.urlVal = false
      · simp [disconnectLoop, h, ih, List.enumFrom_cons]
      · by_cases hd : d p.urlVal (getClientId s p.urlVal) <;>
          simp [disconnectLoop, h, hd, ih, List.enumFrom_cons]

/-- C5: for every proxy list passing validation, `disconnectFromSPDZ`
resolves with one outcome per entry at the matching position, always with
status `Disconnected` (never `Failure`), and afterwards the session store
holds no entry for any input endpoint — whatever each remote disconnect
call's outcome (`d` is universally quantified, covering success and
failure). -/
theorem disconnectFromSPDZ_disconnects_and_clears (d : String → String → Bool)
    (s : SessionStore) (ps : List Proxy)
    (h : verifyRequiredKeys ps = true) :
    ∃ s', (disconnectFromSPDZ d s ps).2 =
        .ok (s', (List.enumFrom 0 ps).map
          (fun e => (⟨e.1, .Disconnected⟩ : Outcome))) ∧
      ∀ p ∈ ps, clientIdExists s' p.urlVal = false := by
  refine ⟨(disconnectLoop d s ps 0).1, ?_, ?_⟩
  · simp [disconnectFromSPDZ, h, disconnectLoop_outs]
  · intro p hp
    rw [clientIdExists_eq_false_iff]
    exact disconnectLoop_mem d s ps 0 p hp

/-- C5 witness: one proxy with a stored session and a remote disconnect
that rejects — the outcome is still `{0, Disconnected}` and the store ends
up empty for that endpoint. -/
theorem disconnectFromSPDZ_disconnects_and_clears_witness :
    ∃ s', (disconnectFromSPDZ cDisc cStore [cProxy]).2 =
        .ok (s', [⟨0, .Disconnected⟩]) ∧
      ∀ p ∈ [cProxy], clientIdExists s' p.urlVal = false := by
  have h :=
    disconnectFromSPDZ_disconnects_and_clears cDisc cStore [cProxy] (by rfl)
  exact h

/-! ## C8: validation precedes any transport call -/

/-- C8: for `disconnectFromSPDZ`, `consumeDataFromProxies` and
`sendInputsToProxies`, an input entry missing the `url` field makes the
whole call reject with the validation error, with an empty transport trace
(no transport operation invoked). -/
theorem validation_rejects_before_transport {A : Type}
    (d : String → String → Bool)
    (co : String → String → Nat → ConsumeResult)
    (de : Option String → List Nat → List Nat)
    (b64 : String → String) (js : List String → String) (hex : A → String)
    (se : String → String → String → Except String Unit)
    (s : SessionStore) (ps : List Proxy) (encrypted : Bool) (wait : Nat)
    (inputs : List A) (h : ∃ p ∈ ps, p.url = none) :
    disconnectFromSPDZ d s ps =
      ([], .error (.validation
        "Each spdzProxyList entry must contain keys: url.")) ∧
    consumeDataFromProxies co de s ps encrypted wait =
      ([], .error (.validation
        "Each spdzProxyList entry must contain keys: url.")) ∧
    sendInputsToProxies b64 js hex se s ps inputs =
      ([], .error (.validation
        "Each spdzProxyList entry must contain keys: url.")) := by
  have hv := verifyRequiredKeys_eq_false ps h
  exact ⟨by simp [disconnectFromSPDZ, hv],
    by simp [consumeDataFromProxies, hv],
    by simp [sendInputsToProxies, hv]⟩

/-- C8 witness: a list containing a record without `url` makes all three
calls reject with the validation error and no transport trace. -/
theorem validation_rejects_before_transport_witness :
    (∃ p ∈ [cBadProxy], p.url = none) ∧
    disconnectFromSPDZ cDisc cStore [cBadProxy] =
      ([], .error (.validation
        "Each spdzProxyList entry must contain keys: url.")) ∧
    consumeDataFromProxies cConsume cDecrypt cStore [cBadProxy] true 0 =
      ([], .error (.validation
        "Each spdzProxyList entry must contain keys: url.")) ∧
    sendInputsToProxies cB64 cJson cHex cSend cStore [cBadProxy] [5] =
      ([], .error (.validation
        "Each spdzProxyList entry must contain keys: url.")) := by
  have h := validation_rejects_before_transport cDisc cConsume cDecrypt cB64
    cJson cHex cSend cStore [cBadProxy] true 0 [5] ⟨cBadProxy, by simp, rfl⟩
  exact ⟨⟨cBadProxy, by simp, rfl⟩, h.1, h.2.1, h.2.2⟩

/-! ## C2, C4, C7: consumeDataFromProxies -/

/-- C2 counterexample: the claim makes "encrypted or not" a per-party flag
on each party record, not a global setting; but with the party record, the
session store and the transport result all held fixed, flipping only the
call-level `encrypted` argument changes the party's returned payload — the
toggle is a per-call setting applied to all parties, and no per-party flag
exists on the record (`Proxy` carries only `url` and `encryptionKey`). -/
theorem consume_encrypted_flag_global_cex :
    (consumeDataFromProxies cConsume cDecrypt cStore [cProxy] true 0).2 =
      .ok [[1, 7]] ∧
    (consumeDataFromProxies cConsume cDecrypt cStore [cProxy] false 0).2 =
      .ok [[7]] ∧
    (consumeDataFromProxies cConsume cDecrypt cStore [cProxy] true 0).2 ≠
      (consumeDataFromProxies cConsume cDecrypt cStore [cProxy] false 0).2 := by
  refine ⟨rfl, rfl, ?_⟩
  intro h
  have h' : (Except.ok [[1, 7]] : Except JsError (List (List Nat))) =
      .ok [[7]] := h
  simp at h'

/-- C2 (amended): when the call resolves, the payload returned for each
party is `decrypt` of that party's own configured `encryptionKey` and the
raw bytes fetched for it when the call-level `encrypted` argument is true,
and the raw bytes unchanged when it is false; `encrypted` is one per-call
argument applied uniformly to every party, not a per-party record flag. -/
theorem consumeDataFromProxies_payloads
    (co : String → String → Nat → ConsumeResult)
    (de : Option String → List Nat → List Nat) (s : SessionStore)
    (ps : List Proxy) (encrypted : Bool) (wait : Nat) (raw : Proxy → List Nat)
    (hv : verifyRequiredKeys ps = true)
    (hs : ∀ p ∈ ps, clientIdExists s p.urlVal = true)
    (hr : ∀ p ∈ ps, co p.urlVal (getClientId s p.urlVal) wait =
      .payload (raw p)) :
    (consumeDataFromProxies co de s ps encrypted wait).2 =
      .ok (ps.map (fun p =>
        if encrypted then de p.encryptionKey (raw p) else raw p)) := by
  have hv' : ¬verifyRequiredKeys ps = false := by simp [hv]
  simp only [consumeDataFromProxies, if_neg hv']
  rw [List.map_map]
  apply promiseAll_map_ok
  intro p hp
  have hraw := hr p hp
  have hps' : ¬clientIdExists s p.urlVal = false := by simp [hs p hp]
  simp [Function.comp, consumeOne, if_neg hps', hraw]

/-- C2 witness for the amended claim: one encrypted party — its payload is
its key's decrypt of the raw bytes; one plaintext call — raw bytes pass
through. -/
theorem consumeDataFromProxies_payloads_witness :
    (consumeDataFromProxies cConsume cDecrypt cStore [cProxy] true 0).2 =
      .ok [cDecrypt cProxy.encryptionKey [7]] ∧
    (consumeDataFromProxies cConsume cDecrypt cStore [cProxy] false 0).2 =
      .ok [[7]] := by
  constructor
  · have h := consumeDataFromProxies_payloads cConsume cDecrypt cStore
      [cProxy] true 0 (fun _ => [7]) (by rfl)
      (by intro p hp; simp at hp; subst hp; rfl)
      (by intro p hp; simp at hp; subst hp; rfl)
    simpa using h
  · have h := consumeDataFromProxies_payloads cConsume cDecrypt cStore
      [cProxy] false 0 (fun _ => [7]) (by rfl)
      (by intro p hp; simp at hp; subst hp; rfl)
      (by intro p hp; simp at hp; subst hp; rfl)
    simpa using h

/-- C4: whenever some input entry's endpoint has no active session,
`consumeDataFromProxies` rejects the whole call — it never resolves, so no
partial payload list is produced. -/
theorem consumeDataFromProxies_rejects_on_missing_session
    (co : String → String → Nat → ConsumeResult)
    (de : Option String → List Nat → List Nat) (s : SessionStore)
    (ps : List Proxy) (encrypted : Bool) (wait : Nat)
    (h : ∃ p ∈ ps, clientIdExists s p.urlVal = false) :
    ∃ e, (consumeDataFromProxies co de s ps encrypted wait).2 =
      .error e := by
  by_cases hv : verifyRequiredKeys ps = false
  · exact ⟨.validation "Each spdzProxyList entry must contain keys: url.",
      by simp [consumeDataFromProxies, hv]⟩
  · rcases h with ⟨p, hp, hpe⟩
    simp only [consumeDataFromProxies, if_neg hv]
    apply promiseAll_error_of_mem _ (JsError.notConnected p.urlVal)
    rw [List.map_map]
    refine List.mem_map.mpr ⟨p, hp, ?_⟩
    simp [Function.comp, consumeOne, hpe]

/-- C4 witness: a proxy list whose only entry has no stored session — the
call rejects. -/
theorem consumeDataFromProxies_rejects_on_missing_session_witness :
    clientIdExists cStore cProxyX.urlVal = false ∧
    ∃ e, (consumeDataFromProxies cConsume cDecrypt cStore [cProxyX]
      true 0).2 = .error e := by
  refine ⟨rfl, ?_⟩
  exact consumeDataFromProxies_rejects_on_missing_session cConsume cDecrypt
    cStore [cProxyX] true 0 ⟨cProxyX, by simp, rfl⟩

/-- C7: a retryable "no data yet" transport outcome surfaces to the caller
as a rejection with the distinct `noContent` signal: when every targeted
party has a session and no party's consume call fails with a transport
error, one party reporting no content makes the aggregate reject with
exactly `JsError.noContent` — the aggregation layer passes the retryable
signal through and never converts it into a `transport` failure. -/
theorem consumeDataFromProxies_noContent_surfaces
    (co : String → String → Nat → ConsumeResult)
    (de : Option String → List Nat → List Nat) (s : SessionStore)
    (ps : List Proxy) (encrypted : Bool) (wait : Nat)
    (hv : verifyRequiredKeys ps = true)
    (hs : ∀ p ∈ ps, clientIdExists s p.urlVal = true)
    (hnc : ∃ p ∈ ps, co p.urlVal (getClientId s p.urlVal) wait = .noContent)
    (hnt : ∀ p ∈ ps, ∀ m,
      co p.urlVal (getClientId s p.urlVal) wait ≠ .transportError m) :
    (consumeDataFromProxies co de s ps encrypted wait).2 =
      .error JsError.noContent := by
  have hv' : ¬verifyRequiredKeys ps = false := by simp [hv]
  simp only [consumeDataFromProxies, if_neg hv']
  rw [List.map_map]
  apply promiseAll_error_eq
  · intro r hr
    rcases List.mem_map.mp hr with ⟨p, hp, hpr⟩
    have hps' : ¬clientIdExists s p.urlVal = false := by simp [hs p hp]
    rw [← hpr]
    simp only [Function.comp, consumeOne, if_neg hps']
    cases hcr : co p.urlVal (getClientId s p.urlVal) wait with
    | payload bs => exact Or.inl ⟨_, rfl⟩
    | noContent => exact Or.inr rfl
    | transportError m => exact absurd hcr (hnt p hp m)
  · rcases hnc with ⟨p, hp, hpc⟩
    refine List.mem_map.mpr ⟨p, hp, ?_⟩
    have hps' : ¬clientIdExists s p.urlVal = false := by simp [hs p hp]
    simp [Function.comp, consumeOne, if_neg hps', hpc]

/-- C7 witness: one connected party whose consume call reports no content —
the aggregate rejects with the retryable `noContent` signal, not a
transport failure. -/
theorem consumeDataFromProxies_noContent_surfaces_witness :
    (consumeDataFromProxies cConsumeNC cDecrypt cStore [cProxy] true 0).2 =
      .error JsError.noContent := by
  apply consumeDataFromProxies_noContent_surfaces cConsumeNC cDecrypt cStore
    [cProxy] true 0 (by rfl)
    (by intro p hp; simp at hp; subst hp; rfl)
    ⟨cProxy, by simp, rfl⟩
  intro p hp m hcontra
  simp [cConsumeNC] at hcontra

/-! ## C9: sendInputsToProxies -/

theorem sendOne_fst_of_no_session
    (se : String → String → String → Except String Unit) (s : SessionStore)
    (payload : String) (p : Proxy) (h : clientIdExists s p.urlVal = false) :
    (sendOne se s payload p).1 = [] := by
  simp [sendOne, h]

theorem sendOne_fst_of_exists
    (se : String → String → String → Except String Unit) (s : SessionStore)
    (payload : String) (p : Proxy) (h : ¬clientIdExists s p.urlVal = false) :
    (sendOne se s payload p).1 =
      [⟨p.urlVal, getClientId s p.urlVal, payload⟩] := by
  simp only [sendOne, if_neg h]
  cases hse : se p.urlVal (getClientId s p.urlVal) payload <;> rfl

theorem sendOne_snd_ok
    (se : String → String → String → Except String Unit) (s : SessionStore)
    (payload : String) (p : Proxy) (h1 : ¬clientIdExists s p.urlVal = false)
    (h2 : se p.urlVal (getClientId s p.urlVal) payload = .ok ()) :
    (sendOne se s payload p).2 = .ok () := by
  simp [sendOne, if_neg h1, h2]

theorem sendOne_snd_error
    (se : String → String → String → Except String Unit) (s : SessionStore)
    (payload : String) (p : Proxy)
    (h : clientIdExists s p.urlVal = false ∨
      ∃ m, se p.urlVal (getClientId s p.urlVal) payload = .error m) :
    ∃ e, (sendOne se s payload p).2 = .error e := by
  rcases h with hg | ⟨m, hse⟩
  · exact ⟨.notConnected p.urlVal, by simp [sendOne, hg]⟩
  · by_cases hg : clientIdExists s p.urlVal = false
    · exact ⟨.notConnected p.urlVal, by simp [sendOne, hg]⟩
    · exact ⟨.transport m, by simp [sendOne, if_neg hg, hse]⟩

/-- C9: `sendInputsToProxies` computes the serialized, encoded body once
from the input list, and then (1) every transport call carries exactly that
body, (2) every party with an active session receives one such call, (3)
any single party's failure — a missing session or a rejected send — rejects
the whole call, and (4) when every party has a session and acknowledges,
the call resolves with one acknowledgement per party. -/
theorem sendInputsToProxies_same_payload_all_or_nothing {A : Type}
    (b64 : String → String) (js : List String → String) (hex : A → String)
    (se : String → String → String → Except String Unit)
    (s : SessionStore) (ps : List Proxy) (inputs : List A) (payload : String)
    (hv : verifyRequiredKeys ps = true)
    (hpl : payload = js (inputs.map (fun g => b64 (hex g)))) :
    (∀ c ∈ (sendInputsToProxies b64 js hex se s ps inputs).1,
      c.body = payload) ∧
    (∀ p ∈ ps, clientIdExists s p.urlVal = true →
      (⟨p.urlVal, getClientId s p.urlVal, payload⟩ : SendCall) ∈
        (sendInputsToProxies b64 js hex se s ps inputs).1) ∧
    ((∃ p ∈ ps, clientIdExists s p.urlVal = false ∨
        ∃ m, se p.urlVal (getClientId s p.urlVal) payload = .error m) →
      ∃ e, (sendInputsToProxies b64 js hex se s ps inputs).2 = .error e) ∧
    ((∀ p ∈ ps, clientIdExists s p.urlVal = true ∧
        se p.urlVal (getClientId s p.urlVal) payload = .ok ()) →
      (sendInputsToProxies b64 js hex se s ps inputs).2 =
        .ok (ps.map (fun _ => ()))) := by
  subst hpl
  have hv' : ¬verifyRequiredKeys ps = false := by simp [hv]
  refine ⟨?_, ?_, ?_, ?_⟩
  · intro c hc
    simp only [sendInputsToProxies, if_neg hv'] at hc
    rw [List.map_map] at hc
    rcases List.mem_flatten.mp hc with ⟨blk, hblk, hcb⟩
    rcases List.mem_map.mp hblk with ⟨p, hp, hpb⟩
    rw [← hpb] at hcb
    simp only [Function.comp] at hcb
    by_cases hg : clientIdExists s p.urlVal = false
    · rw [sendOne_fst_of_no_session _ _ _ _ hg] at hcb
      cases hcb
    · rw [sendOne_fst_of_exists _ _ _ _ hg] at hcb
      rcases List.mem_singleton.mp hcb with rfl
      rfl
  · intro p hp hex1
    simp only [sendInputsToProxies, if_neg hv']
    rw [List.map_map]
    apply List.mem_flatten.mpr
    refine ⟨(sendOne se s
        (js (inputs.map (fun g => b64 (hex g)))) p).1,
      List.mem_map.mpr ⟨p, hp, rfl⟩, ?_⟩
    rw [sendOne_fst_of_exists _ _ _ _ (by simp [hex1])]
    simp
  · rintro ⟨p, hp, hfail⟩
    rcases sendOne_snd_error se s
      (js (inputs.map (fun g => b64 (hex g)))) p hfail with ⟨e0, he0⟩
    simp only [sendInputsToProxies, if_neg hv']
    rw [List.map_map]
    apply promiseAll_error_of_mem _ e0
    refine List.mem_map.mpr ⟨p, hp, ?_⟩
    simpa [Function.comp] using he0
  · intro hall
    simp only [sendInputsToProxies, if_neg hv']
    rw [List.map_map]
    apply promiseAll_map_ok
    intro p hp
    have h2 := (hall p hp).2
    simpa [Function.comp] using sendOne_snd_ok se s
      (js (inputs.map (fun g => b64 (hex g)))) p
      (by simp [(hall p hp).1]) h2

/-- C9 witness: one connected party acknowledging — the single transport
call carries the body computed from the input list and the call resolves
with one acknowledgement. -/
theorem sendInputsToProxies_same_payload_all_or_nothing_witness :
    (∀ c ∈ (sendInputsToProxies cB64 cJson cHex cSend cStore
        [cProxy] [5]).1,
      c.body = cJson ([5].map (fun g => cB64 (cHex g)))) ∧
    (sendInputsToProxies cB64 cJson cHex cSend cStore [cProxy] [5]).2 =
      .ok [()] := by
  have h := sendInputsToProxies_same_payload_all_or_nothing cB64 cJson cHex
    cSend cStore [cProxy] [5] (cJson ([5].map (fun g => cB64 (cHex g))))
    (by rfl) rfl
  refine ⟨h.1, ?_⟩
  have hc := h.2.2.2 (by intro p hp; simp at hp; subst hp; exact ⟨rfl, rfl⟩)
  simpa using hc

end SpdzClientLib
